import Mathlib

/-!
Verification of the github-metrics report generator (src/generate_report.py)
against its specification. The Python script is shallowly embedded below:
the GraphQL backend is modelled by the data it returns (repository pages,
search counts, HTTP responses), environment and subprocess state by an
explicit record, and the script logic by executable Lean functions that
mirror the source line by line.
-/

namespace GithubMetrics

/-! ## Data model of the GraphQL responses used by fetch_repo_stats -/

/-- The `... on Commit` target of a defaultBranchRef: for each requested year
the query requests a field `h{year}: history(...) { totalCount }`; a response
node carries some subset of those fields. We model the present fields as an
association list from year to totalCount. -/
structure CommitTarget where
  counts : List (Int × Nat)
deriving DecidableEq

/-- `defaultBranchRef` value: its `target` may be absent (null). -/
structure BranchRef where
  target : Option CommitTarget
deriving DecidableEq

/-- One element of `repositories.nodes`. -/
structure RepoNode where
  name : String
  defaultBranchRef : Option BranchRef
deriving DecidableEq

structure PageInfo where
  hasNextPage : Bool
  endCursor : Option String
deriving DecidableEq

/-- One page of the `viewer.repositories(first: 50, ...)` connection. -/
structure RepoPage where
  pageInfo : PageInfo
  nodes : List RepoNode
deriving DecidableEq

/-- The page size hard-coded in the repositories query (`first: 50`). -/
def pageSize : Nat := 50

/-! ## fetch_repo_stats (src/generate_report.py lines 61-113) -/

/-- Count read from a commit target for one year: `target[f"h{year}"]["totalCount"]`
when the key is present, 0 otherwise. -/
def targetCount (t : CommitTarget) (year : Int) : Nat :=
  match t.counts.lookup year with
  | some c => c
  | none => 0

/-- The contribution of a single repository node to one year, as
fetch_repo_stats reads it: 0 when `defaultBranchRef` or its `target` is
absent, otherwise the `h{year}` totalCount (0 when that key is absent). -/
def repoYearCount (repo : RepoNode) (year : Int) : Nat :=
  match repo.defaultBranchRef with
  | none => 0
  | some br =>
    match br.target with
    | none => 0
    | some t => targetCount t year

/-- Body of `if key in target: commit_counts[year] += target[key]["totalCount"]`
for one year of the inner loop. -/
def addYearStep (t : CommitTarget) (acc : Int → Nat) (year : Int) : Int → Nat :=
  match t.counts.lookup year with
  | some c => fun y => if y = year then acc y + c else acc y
  | none => acc

/-- The inner `for year in years` loop of fetch_repo_stats over one target. -/
def addYears (t : CommitTarget) (years : List Int) (counts : Int → Nat) : Int → Nat :=
  years.foldl (addYearStep t) counts

/-- Processing of one repository node (lines 100-105): the years loop runs only
when both `defaultBranchRef` and its `target` are truthy. -/
def processRepo (years : List Int) (counts : Int → Nat) (repo : RepoNode) : Int → Nat :=
  match repo.defaultBranchRef with
  | none => counts
  | some br =>
    match br.target with
    | none => counts
    | some t => addYears t years counts

/-- The `for repo in repos["nodes"]` loop over one page. -/
def processPage (years : List Int) (counts : Int → Nat) (page : RepoPage) : Int → Nat :=
  page.nodes.foldl (processRepo years) counts

/-- The `while has_next` pagination loop, driven by the sequence of pages the
server returns: each iteration processes the next page and continues exactly
when that page reports `hasNextPage`. -/
def fetchPagesLoop (years : List Int) : List RepoPage → (Int → Nat) → Int → Nat
  | [], counts => counts
  | page :: rest, counts =>
    let counts2 := processPage years counts page
    if page.pageInfo.hasNextPage then fetchPagesLoop years rest counts2 else counts2

/-- fetch_repo_stats: commit_counts starts at `{year: 0 for year in years}` and
is accumulated across all fetched pages. -/
def fetchRepoStats (years : List Int) (pages : List RepoPage) : Int → Nat :=
  fetchPagesLoop years pages (fun _ => 0)

/-- A page sequence as the server hands it out: every page before the last
reports a next page, and the last page reports none, so the pagination loop
consumes exactly this sequence. -/
def wellPaged : List RepoPage → Bool
  | [] => true
  | [p] => !p.pageInfo.hasNextPage
  | p :: q :: rest => p.pageInfo.hasNextPage && wellPaged (q :: rest)

/-! ## Year-list normalisation (src/generate_report.py line 142) -/

/-- `years = sorted(list(set(args.year)))`. -/
def computeYears (input : List Int) : List Int :=
  (input.dedup).insertionSort (· ≤ ·)

/-! ## Credential resolver: GitHubClient._get_token (lines 21-37) -/

/-- Outcome of `_get_token`: either a token string is returned, or the
process terminates via `sys.exit(code)`. -/
inductive TokenResult where
  | token (t : String)
  | exit (code : Nat)
deriving DecidableEq

/-- The process environment the resolver consults: the `GITHUB_TOKEN`
variable, whether a `gh` executable is on the search path
(`shutil.which("gh")`), and the stdout of `gh auth token` when that
subprocess exits 0 (`none` models a `CalledProcessError`). -/
structure Env where
  githubToken : Option String
  ghOnPath : Bool
  ghAuthToken : Option String
deriving DecidableEq

/-- A token-resolution result together with whether the external helper
process was actually run. -/
structure TokenOutcome where
  result : TokenResult
  helperInvoked : Bool
deriving DecidableEq

/-- Python truthiness of `os.environ.get(...)`: `None` and the empty
string are falsy. -/
def envTruthy : Option String → Bool
  | none => false
  | some t => !t.isEmpty

/-- Python `str.strip()` on a character list: drop whitespace from both
ends. -/
def stripChars (l : List Char) : List Char :=
  ((l.dropWhile Char.isWhitespace).reverse.dropWhile Char.isWhitespace).reverse

/-- Python `str.strip()`. -/
def pyStrip (s : String) : String :=
  ⟨stripChars s.data⟩

/-- The `gh` fallback of `_get_token` (lines 25-37): run `gh auth token`
when `gh` is on the path; a `CalledProcessError` falls through to the
diagnostic print and `sys.exit(1)`, which is also reached when `gh` is
not on the path. -/
def ghFallback (env : Env) : TokenOutcome :=
  if env.ghOnPath then
    match env.ghAuthToken with
    | some out => ⟨TokenResult.token (pyStrip out), true⟩
    | none => ⟨TokenResult.exit 1, true⟩
  else ⟨TokenResult.exit 1, false⟩

/-- `_get_token`, instrumented with whether the helper ran: return
`GITHUB_TOKEN.strip()` when the variable is truthy, otherwise fall back
to `gh`. -/
def getTokenT (env : Env) : TokenOutcome :=
  match env.githubToken with
  | some t => if !t.isEmpty then ⟨TokenResult.token (pyStrip t), false⟩ else ghFallback env
  | none => ghFallback env

/-- `_get_token` as the caller sees it. -/
def getToken (env : Env) : TokenResult :=
  (getTokenT env).result

/-! ## Query client: GitHubClient.run_query (lines 39-50) -/

/-- The two exceptions run_query raises: `API Error {status}: {text}` for a
non-200 HTTP status, and `GraphQL Error: {errors}` when the decoded body has
a top-level `errors` field. -/
inductive QueryError where
  | apiError (status : Nat) (text : String)
  | graphqlError (errors : String)
deriving DecidableEq

/-- An HTTP response as run_query inspects it: status code, raw text, and
the decoded top-level JSON object (field values kept opaque as strings). -/
structure HttpResp where
  status : Nat
  text : String
  body : List (String × String)
deriving DecidableEq

/-- run_query on a response the endpoint produced: raise on non-200 status,
then raise when the decoded body contains `errors`, else return the body. -/
def runQuery (resp : HttpResp) : Except QueryError (List (String × String)) :=
  if resp.status ≠ 200 then Except.error (QueryError.apiError resp.status resp.text)
  else
    match resp.body.lookup "errors" with
    | some e => Except.error (QueryError.graphqlError e)
    | none => Except.ok resp.body

/-! ## Report assembly: main (lines 137-189) -/

/-- `data["data"]["viewer"]` of the viewer query. -/
structure Viewer where
  login : String
  id : String
deriving DecidableEq

/-- The three counts fetch_search_metrics extracts for one year. -/
structure SearchMetrics where
  prs_created : Nat
  prs_merged : Nat
  issues_created : Nat
deriving DecidableEq

/-- One element of the `results` list main builds, the record shape written
to JSON and CSV. -/
structure YearRecord where
  year : Int
  commits : Nat
  prs_created : Nat
  prs_merged : Nat
  issues_created : Nat
deriving DecidableEq

/-- The `results` construction of main (lines 153-162), given the outcome of
fetch_repo_stats and of fetch_search_metrics per year:
`commits = commit_counts.get(year, 0)` plus the three search counts. -/
def buildResults (years : List Int) (commitCounts : Int → Nat)
    (metrics : Int → SearchMetrics) : List YearRecord :=
  years.map fun y =>
    { year := y
      commits := commitCounts y
      prs_created := (metrics y).prs_created
      prs_merged := (metrics y).prs_merged
      issues_created := (metrics y).issues_created }

/-- The CSV header row written at line 181. -/
def csvHeader : List String :=
  ["Year", "Commits", "PRs Created", "PRs Merged", "Issues Created"]

/-- One CSV data row (line 183): year, commits, prs_created, prs_merged,
issues_created, in that order. -/
def recordRow (r : YearRecord) : List String :=
  [toString r.year, toString r.commits, toString r.prs_created,
   toString r.prs_merged, toString r.issues_created]

/-- The CSV file as a list of rows: header first, then one row per record. -/
def csvFile (results : List YearRecord) : List (List String) :=
  csvHeader :: results.map recordRow

/-- The backend a whole run talks to: the response to the viewer query, the
successive repository pages, and the search response per year; each already
split by runQuery into an error or its parsed payload. -/
structure Backend where
  viewer : Except QueryError Viewer
  pages : List (Except QueryError RepoPage)
  search : Int → Except QueryError SearchMetrics

/-- Observable outcome of one process run: exit status, how many network
requests were issued, whether the output files were created or overwritten,
and the query error caught by the top-level handler, if any. -/
structure MainTrace where
  exitCode : Nat
  networkCalls : Nat
  filesWritten : Bool
  failed : Option QueryError
deriving DecidableEq

/-- The pagination loop of fetch_repo_stats as executed inside main, where
each page request may raise: returns the number of page requests made and
either the raised error or the accumulated counts. -/
def fetchRun (years : List Int) :
    List (Except QueryError RepoPage) → (Int → Nat) → Nat →
      Nat × Except QueryError (Int → Nat)
  | [], counts, calls => (calls, Except.ok counts)
  | r :: rest, counts, calls =>
    match r with
    | Except.error e => (calls + 1, Except.error e)
    | Except.ok page =>
      let counts2 := processPage years counts page
      if page.pageInfo.hasNextPage then fetchRun years rest counts2 (calls + 1)
      else (calls + 1, Except.ok counts2)

/-- The `for year in years` loop of main (lines 154-162): one
fetch_search_metrics request per year, appending a record per success,
aborting on the first raised error. -/
def searchRun (search : Int → Except QueryError SearchMetrics)
    (commitCounts : Int → Nat) :
    List Int → List YearRecord → Nat → Nat × Except QueryError (List YearRecord)
  | [], acc, calls => (calls, Except.ok acc)
  | y :: rest, acc, calls =>
    match search y with
    | Except.error e => (calls + 1, Except.error e)
    | Except.ok m =>
      searchRun search commitCounts rest
        (acc ++ [{ year := y, commits := commitCounts y,
                   prs_created := m.prs_created, prs_merged := m.prs_merged,
                   issues_created := m.issues_created }]) (calls + 1)

/-- One whole run of main: normalise the years, resolve the token (a failure
there is `sys.exit(1)` before any request), then viewer query, pagination,
and per-year searches in order; any raised error reaches the top-level
handler, which exits 1 without touching the output files; only after every
request succeeded does main create the output directory and write both
files. -/
def mainRun (env : Env) (backend : Backend) (input : List Int) : MainTrace :=
  match getToken env with
  | TokenResult.exit c => ⟨c, 0, false, none⟩
  | TokenResult.token _ =>
    match backend.viewer with
    | Except.error e => ⟨1, 1, false, some e⟩
    | Except.ok _ =>
      match fetchRun (computeYears input) backend.pages (fun _ => 0) 0 with
      | (pcalls, Except.error e) => ⟨1, 1 + pcalls, false, some e⟩
      | (pcalls, Except.ok counts) =>
        match searchRun backend.search counts (computeYears input) [] 0 with
        | (scalls, Except.error e) => ⟨1, 1 + pcalls + scalls, false, some e⟩
        | (scalls, Except.ok _) => ⟨0, 1 + pcalls + scalls, true, none⟩

/-! ## Accumulation lemmas for fetch_repo_stats -/

theorem addYearStep_self (t : CommitTarget) (acc : Int → Nat) (year : Int) :
    addYearStep t acc year year = acc year + targetCount t year := by
  cases h : t.counts.lookup year with
  | none => simp [addYearStep, targetCount, h]
  | some c => simp [addYearStep, targetCount, h]

theorem addYearStep_ne (t : CommitTarget) (acc : Int → Nat) (year y : Int)
    (h : y ≠ year) : addYearStep t acc year y = acc y := by
  cases hl : t.counts.lookup year with
  | none => simp [addYearStep, hl]
  | some c => simp [addYearStep, hl, h]

theorem addYears_not_mem (t : CommitTarget) :
    ∀ (years : List Int) (counts : Int → Nat) (y : Int), y ∉ years →
      addYears t years counts y = counts y := by
  intro years
  induction years with
  | nil => intro counts y _; rfl
  | cons a rest ih =>
    intro counts y hy
    have hya : y ≠ a := fun h => hy (h ▸ List.mem_cons_self a rest)
    have hyr : y ∉ rest := fun h => hy (List.mem_cons_of_mem a h)
    show addYears t rest (addYearStep t counts a) y = counts y
    rw [ih _ y hyr, addYearStep_ne t counts a y hya]

theorem addYears_mem (t : CommitTarget) :
    ∀ (years : List Int) (counts : Int → Nat) (y : Int), years.Nodup → y ∈ years →
      addYears t years counts y = counts y + targetCount t y := by
  intro years
  induction years with
  | nil => intro counts y _ hy; cases hy
  | cons a rest ih =>
    intro counts y hnd hy
    show addYears t rest (addYearStep t counts a) y = counts y + targetCount t y
    rcases List.mem_cons.mp hy with rfl | hyr
    · have hnr : y ∉ rest := (List.nodup_cons.mp hnd).1
      rw [addYears_not_mem t rest _ y hnr, addYearStep_self]
    · have hya : y ≠ a := by
        intro h; exact (List.nodup_cons.mp hnd).1 (h ▸ hyr)
      rw [ih _ y (List.nodup_cons.mp hnd).2 hyr, addYearStep_ne t counts a y hya]

theorem addYears_lookup_none (t : CommitTarget) (y : Int)
    (h : t.counts.lookup y = none) :
    ∀ (years : List Int) (counts : Int → Nat), addYears t years counts y = counts y := by
  intro years
  induction years with
  | nil => intro counts; rfl
  | cons a rest ih =>
    intro counts
    show addYears t rest (addYearStep t counts a) y = counts y
    rw [ih]
    by_cases hya : y = a
    · subst hya; simp [addYearStep, h]
    · exact addYearStep_ne t counts a y hya

theorem processRepo_apply (years : List Int) (counts : Int → Nat) (repo : RepoNode)
    (y : Int) (hnd : years.Nodup) (hy : y ∈ years) :
    processRepo years counts repo y = counts y + repoYearCount repo y := by
  obtain ⟨nm, dbr⟩ := repo
  cases dbr with
  | none => simp [processRepo, repoYearCount]
  | some br =>
    obtain ⟨tg⟩ := br
    cases tg with
    | none => simp [processRepo, repoYearCount]
    | some t =>
      simp only [processRepo, repoYearCount]
      exact addYears_mem t years counts y hnd hy

theorem foldl_processRepo (years : List Int) (y : Int) (hnd : years.Nodup)
    (hy : y ∈ years) :
    ∀ (nodes : List RepoNode) (counts : Int → Nat),
      nodes.foldl (processRepo years) counts y =
        counts y + (nodes.map (fun r => repoYearCount r y)).sum := by
  intro nodes
  induction nodes with
  | nil => intro counts; simp
  | cons r rest ih =>
    intro counts
    simp only [List.foldl_cons, List.map_cons, List.sum_cons]
    rw [ih, processRepo_apply years counts r y hnd hy]
    omega

theorem fetchPagesLoop_apply (years : List Int) (y : Int) (hnd : years.Nodup)
    (hy : y ∈ years) :
    ∀ (pages : List RepoPage) (counts : Int → Nat), wellPaged pages = true →
      fetchPagesLoop years pages counts y =
        counts y +
          (pages.map (fun p => (p.nodes.map (fun r => repoYearCount r y)).sum)).sum := by
  intro pages
  induction pages with
  | nil => intro counts _; simp [fetchPagesLoop]
  | cons p rest ih =>
    intro counts hwp
    cases rest with
    | nil =>
      have hnp : p.pageInfo.hasNextPage = false := by
        simpa [wellPaged] using hwp
      show (if p.pageInfo.hasNextPage then fetchPagesLoop years []
              (processPage years counts p) else processPage years counts p) y =
          counts y + _
      rw [hnp]
      simpa using foldl_processRepo years y hnd hy p.nodes counts
    | cons q rest2 =>
      have hw : p.pageInfo.hasNextPage = true ∧ wellPaged (q :: rest2) = true := by
        simpa [wellPaged] using hwp
      show (if p.pageInfo.hasNextPage then fetchPagesLoop years (q :: rest2)
              (processPage years counts p) else processPage years counts p) y =
          counts y + _
      rw [hw.1]
      simp only [if_true]
      rw [ih _ hw.2]
      have h1 := foldl_processRepo years y hnd hy p.nodes counts
      simp only [processPage]
      rw [h1]
      simp only [List.map_cons, List.sum_cons]
      omega

/-! ## Claim C1 -/

/-- C1: for a set of requested years (no duplicates) and any sequence of
repository pages as the server hands them out in batches of at most 50 until
it reports no further pages, fetch_repo_stats returns, for each requested
year, the sum over all repositories across all pages of that repository
default-branch history count for the year, counting 0 where the per-year
field is absent. -/
theorem fetchRepoStats_additive (years : List Int) (pages : List RepoPage) (y : Int)
    (hnd : years.Nodup) (hy : y ∈ years) (hwp : wellPaged pages = true)
    (hbatch : ∀ p ∈ pages, p.nodes.length ≤ pageSize) :
    fetchRepoStats years pages y =
      (pages.map (fun p => (p.nodes.map (fun r => repoYearCount r y)).sum)).sum := by
  simpa [fetchRepoStats] using
    fetchPagesLoop_apply years y hnd hy pages (fun _ => 0) hwp

def wRepoA : RepoNode := ⟨"alpha", some ⟨some ⟨[(2023, 3), (2024, 7)]⟩⟩⟩

def wRepoB : RepoNode := ⟨"beta", none⟩

def wRepoC : RepoNode := ⟨"gamma", some ⟨none⟩⟩

def wRepoD : RepoNode := ⟨"delta", some ⟨some ⟨[(2023, 2)]⟩⟩⟩

def wPage1 : RepoPage := ⟨⟨true, some "cursor1"⟩, [wRepoA, wRepoB]⟩

def wPage2 : RepoPage := ⟨⟨false, none⟩, [wRepoC, wRepoD]⟩

theorem fetchRepoStats_additive_witness :
    [(2023 : Int), 2024].Nodup ∧ (2023 : Int) ∈ [(2023 : Int), 2024] ∧
      fetchRepoStats [2023, 2024] [wPage1, wPage2] 2023 =
        ([wPage1, wPage2].map
          (fun p => (p.nodes.map (fun r => repoYearCount r 2023)).sum)).sum :=
  ⟨by decide, by decide,
    fetchRepoStats_additive [2023, 2024] [wPage1, wPage2] 2023 (by decide) (by decide)
      (by decide) (by decide)⟩

/-! ## Claim C2 -/

/-- C2: a repository node with no default branch, or one whose default
branch has no resolvable commit target, contributes exactly 0 to every
year total (the accumulator is unchanged by it), and a year whose h-key is
absent from the commit target likewise contributes 0 for that repository. -/
theorem repoZeroContribution (years : List Int) (counts : Int → Nat)
    (repo : RepoNode) (y : Int)
    (h : repo.defaultBranchRef = none
       ∨ (∃ br, repo.defaultBranchRef = some br ∧ br.target = none)
       ∨ (∃ br t, repo.defaultBranchRef = some br ∧ br.target = some t ∧
            t.counts.lookup y = none)) :
    processRepo years counts repo y = counts y ∧ repoYearCount repo y = 0 := by
  obtain ⟨nm, dbr⟩ := repo
  rcases h with h | ⟨br, hbr, ht⟩ | ⟨br, t, hbr, ht, hl⟩
  · simp only at h
    subst h
    simp [processRepo, repoYearCount]
  · simp only at hbr
    subst hbr
    simp [processRepo, repoYearCount, ht]
  · simp only at hbr
    subst hbr
    refine ⟨?_, ?_⟩
    · simp only [processRepo, ht]
      exact addYears_lookup_none t y hl years counts
    · simp [repoYearCount, ht, targetCount, hl]

theorem repoZeroContribution_witness :
    processRepo [2023] (fun _ => 4) ⟨"nobranch", none⟩ 2023 = (fun _ : Int => 4) 2023 ∧
      repoYearCount ⟨"nobranch", none⟩ 2023 = 0 :=
  repoZeroContribution [2023] (fun _ => 4) ⟨"nobranch", none⟩ 2023 (Or.inl rfl)

/-! ## Claim C3 -/

/-- C3: for every multiset of command-line year arguments, the year list the
report runs over is sorted ascending, has no duplicates, and contains
exactly the input years. -/
theorem computeYears_spec (input : List Int) :
    (computeYears input).Sorted (· ≤ ·) ∧ (computeYears input).Nodup ∧
      ∀ y : Int, y ∈ computeYears input ↔ y ∈ input := by
  refine ⟨List.sorted_insertionSort _ _, ?_, ?_⟩
  · exact ((List.perm_insertionSort _ _).nodup_iff).mpr (List.nodup_dedup input)
  · intro y
    exact ((List.perm_insertionSort _ _).mem_iff).trans (List.mem_dedup)

/-! ## Claim C4 -/

/-- The commit totals of the mocked backend of the C4 scenario. -/
def mockCommits : Int → Nat := fun y => if y = 2023 then 5 else if y = 2024 then 12 else 0

/-- The search counts of the mocked backend of the C4 scenario. -/
def mockSearch : Int → SearchMetrics := fun y =>
  if y = 2023 then ⟨2, 1, 0⟩ else if y = 2024 then ⟨4, 4, 1⟩ else ⟨0, 0, 0⟩

/-- C4: with input years [2023, 2024] and the mocked backend returning commit
totals 5 and 12 and search counts (2,1,0) and (4,4,1), the records written
to JSON are exactly the two expected records in order. -/
theorem jsonRecords_2023_2024 :
    buildResults (computeYears [2023, 2024]) mockCommits mockSearch =
      [⟨2023, 5, 2, 1, 0⟩, ⟨2024, 12, 4, 4, 1⟩] := by decide

/-! ## Lemmas on the credential resolver -/

theorem getTokenT_envTruthy (env : Env) (h : envTruthy env.githubToken = false) :
    getTokenT env = ghFallback env := by
  cases hgt : env.githubToken with
  | none => simp [getTokenT, hgt]
  | some t =>
    cases hti : t.isEmpty with
    | false => simp [envTruthy, hgt, hti] at h
    | true => simp [getTokenT, hgt, hti]

theorem ghFallback_fail (env : Env)
    (h2 : env.ghOnPath = false ∨ env.ghAuthToken = none) :
    ghFallback env = ⟨TokenResult.exit 1, env.ghOnPath⟩ := by
  rcases h2 with h | h
  · simp [ghFallback, h]
  · cases hgp : env.ghOnPath <;> simp [ghFallback, hgp, h]

theorem getTokenT_ofEnvVar (env : Env) (t : String) (h1 : env.githubToken = some t)
    (h2 : t.isEmpty = false) :
    getTokenT env = ⟨TokenResult.token (pyStrip t), false⟩ := by
  simp [getTokenT, h1, h2]

theorem getTokenT_ofHelper (env : Env) (s : String)
    (h1 : envTruthy env.githubToken = false) (h2 : env.ghOnPath = true)
    (h3 : env.ghAuthToken = some s) :
    getTokenT env = ⟨TokenResult.token (pyStrip s), true⟩ := by
  rw [getTokenT_envTruthy env h1]
  simp [ghFallback, h2, h3]

theorem getTokenT_ofFailure (env : Env)
    (h1 : envTruthy env.githubToken = false)
    (h2 : env.ghOnPath = false ∨ env.ghAuthToken = none) :
    getTokenT env = ⟨TokenResult.exit 1, env.ghOnPath⟩ := by
  rw [getTokenT_envTruthy env h1]
  exact ghFallback_fail env h2

theorem getToken_shape (env : Env) :
    (∃ t, getToken env = TokenResult.token t) ∨ getToken env = TokenResult.exit 1 := by
  obtain ⟨gt, gp, ga⟩ := env
  cases gt with
  | none =>
    cases gp with
    | false => exact Or.inr rfl
    | true =>
      cases ga with
      | none => exact Or.inr rfl
      | some s => exact Or.inl ⟨(pyStrip s), rfl⟩
  | some t =>
    cases hti : t.isEmpty with
    | false => exact Or.inl ⟨(pyStrip t), by simp [getToken, getTokenT, hti]⟩
    | true =>
      cases gp with
      | false => exact Or.inr (by simp [getToken, getTokenT, ghFallback, hti])
      | true =>
        cases ga with
        | none => exact Or.inr (by simp [getToken, getTokenT, ghFallback, hti])
        | some s =>
          exact Or.inl ⟨(pyStrip s), by simp [getToken, getTokenT, ghFallback, hti]⟩

theorem helperNotInvoked_offPath (env : Env) (h : env.ghOnPath = false) :
    (getTokenT env).helperInvoked = false := by
  cases hgt : env.githubToken with
  | none => simp [getTokenT, hgt, ghFallback, h]
  | some t =>
    cases hti : t.isEmpty with
    | false => simp [getTokenT, hgt, hti]
    | true => simp [getTokenT, hgt, hti, ghFallback, h]

/-! ## Claim C5 -/

/-- C5 counterexample: with GITHUB_TOKEN set to a single space (truthy in
Python), _get_token returns the stripped value, the empty string: it neither
returns a non-empty token nor terminates the process, so the resolver does
not always produce a non-empty token or exit. -/
theorem getToken_nonempty_cex :
    ¬((∃ t, getToken ⟨some " ", false, none⟩ = TokenResult.token t ∧ t ≠ "") ∨
      getToken ⟨some " ", false, none⟩ = TokenResult.exit 1) := by
  have hg : getToken ⟨some " ", false, none⟩ = TokenResult.token "" := by decide
  intro h
  rcases h with ⟨t, ht, hne⟩ | hx
  · rw [hg] at ht
    injection ht with h2
    exact hne h2.symm
  · rw [hg] at hx
    cases hx

/-- C5 (amended): _get_token either returns a token — the stripped source
value, hence possibly empty when that value is all whitespace — or exits the
process with status 1, attempting in order: the GITHUB_TOKEN environment
variable when truthy, then the gh credential helper, then the
diagnostic-and-exit branch. -/
theorem getToken_contract (env : Env) :
    ((∃ t, getToken env = TokenResult.token t) ∨ getToken env = TokenResult.exit 1)
    ∧ (∀ t, env.githubToken = some t → t.isEmpty = false →
        getToken env = TokenResult.token (pyStrip t))
    ∧ (envTruthy env.githubToken = false → env.ghOnPath = true →
        ∀ s, env.ghAuthToken = some s → getToken env = TokenResult.token (pyStrip s))
    ∧ (envTruthy env.githubToken = false →
        (env.ghOnPath = false ∨ env.ghAuthToken = none) →
        getToken env = TokenResult.exit 1) := by
  refine ⟨getToken_shape env, ?_, ?_, ?_⟩
  · intro t h1 h2
    simp [getToken, getTokenT_ofEnvVar env t h1 h2]
  · intro h1 h2 s h3
    simp [getToken, getTokenT_ofHelper env s h1 h2 h3]
  · intro h1 h2
    simp [getToken, getTokenT_ofFailure env h1 h2]

theorem getToken_contract_witness :
    getToken ⟨some "abc", false, none⟩ = TokenResult.token (pyStrip "abc") :=
  (getToken_contract ⟨some "abc", false, none⟩).2.1 "abc" rfl rfl

/-! ## Claim C6 -/

/-- C6: run_query raises exactly when the HTTP status is not 200 or the
decoded body has a top-level errors field; the API error carries the status
code and raw body, the GraphQL error carries the errors content, and
otherwise the parsed body is returned unchanged. -/
theorem runQuery_spec (resp : HttpResp) :
    ((∃ e, runQuery resp = Except.error e) ↔
      (resp.status ≠ 200 ∨ (resp.body.lookup "errors").isSome = true))
    ∧ (resp.status ≠ 200 →
        runQuery resp = Except.error (QueryError.apiError resp.status resp.text))
    ∧ (∀ e, resp.status = 200 → resp.body.lookup "errors" = some e →
        runQuery resp = Except.error (QueryError.graphqlError e))
    ∧ (resp.status = 200 → resp.body.lookup "errors" = none →
        runQuery resp = Except.ok resp.body) := by
  refine ⟨?_, ?_, ?_, ?_⟩
  · by_cases hs : resp.status = 200
    · cases hl : resp.body.lookup "errors" with
      | none =>
        have hq : runQuery resp = Except.ok resp.body := by simp [runQuery, hs, hl]
        simp [hq, hs, hl]
      | some e =>
        have hq : runQuery resp = Except.error (QueryError.graphqlError e) := by
          simp [runQuery, hs, hl]
        simp [hq, hs, hl]
    · have hq : runQuery resp =
          Except.error (QueryError.apiError resp.status resp.text) := by
        simp [runQuery, hs]
      simp [hq, hs]
  · intro h
    simp [runQuery, h]
  · intro e hs hl
    simp [runQuery, hs, hl]
  · intro hs hl
    simp [runQuery, hs, hl]

theorem runQuery_spec_witness :
    runQuery ⟨200, "raw", []⟩ = Except.ok ([] : List (String × String)) :=
  (runQuery_spec ⟨200, "raw", []⟩).2.2.2 rfl rfl

/-! ## Claim C7 -/

/-- C7: when no token is resolvable from the environment variable or the
helper, the run exits with status 1 having issued zero network requests and
written no files. -/
theorem noToken_noNetwork (env : Env) (backend : Backend) (input : List Int)
    (h1 : envTruthy env.githubToken = false)
    (h2 : env.ghOnPath = false ∨ env.ghAuthToken = none) :
    mainRun env backend input = ⟨1, 0, false, none⟩ := by
  have hg : getToken env = TokenResult.exit 1 := by
    simp [getToken, getTokenT_ofFailure env h1 h2]
  simp [mainRun, hg]

/-- A live backend, used only to instantiate the C7 theorem: the no-token
exit must ignore it. -/
def wBackend7 : Backend :=
  ⟨Except.ok ⟨"user", "uid"⟩, [Except.ok ⟨⟨false, none⟩, []⟩],
    fun _ => Except.ok ⟨0, 0, 0⟩⟩

theorem noToken_noNetwork_witness :
    mainRun ⟨none, false, none⟩ wBackend7 [2024] = ⟨1, 0, false, none⟩ :=
  noToken_noNetwork ⟨none, false, none⟩ wBackend7 [2024] rfl (Or.inl rfl)

/-! ## Claim C8 -/

theorem mainRun_shape (env : Env) (backend : Backend) (input : List Int) :
    (mainRun env backend input).failed = none ∨
      ((mainRun env backend input).exitCode = 1 ∧
        (mainRun env backend input).filesWritten = false) := by
  unfold mainRun
  split
  · left; rfl
  · split
    · right; exact ⟨rfl, rfl⟩
    · split
      · right; exact ⟨rfl, rfl⟩
      · split
        · right; exact ⟨rfl, rfl⟩
        · left; rfl

/-- C8: whenever the error the top-level handler caught is an API error
(non-success HTTP status), the run exits with status 1 and the output files
are neither created nor overwritten. -/
theorem apiError_noFiles (env : Env) (backend : Backend) (input : List Int)
    (s : Nat) (txt : String)
    (h : (mainRun env backend input).failed = some (QueryError.apiError s txt)) :
    (mainRun env backend input).exitCode = 1 ∧
      (mainRun env backend input).filesWritten = false := by
  rcases mainRun_shape env backend input with hn | hok
  · rw [h] at hn
    exact Option.noConfusion hn
  · exact hok

/-- A backend whose viewer query fails with HTTP 500, used only to
instantiate the C8 theorem. -/
def wBackend8 : Backend :=
  ⟨Except.error (QueryError.apiError 500 "boom"), [], fun _ => Except.ok ⟨0, 0, 0⟩⟩

theorem apiError_noFiles_witness :
    (mainRun ⟨some "tok", false, none⟩ wBackend8 [2024]).exitCode = 1 ∧
      (mainRun ⟨some "tok", false, none⟩ wBackend8 [2024]).filesWritten = false :=
  apiError_noFiles ⟨some "tok", false, none⟩ wBackend8 [2024] 500 "boom" (by decide)

/-! ## Claim C9 -/

/-- C9: the CSV file is the header row followed by one data row per record
in order, each row holding year, commits, prs_created, prs_merged,
issues_created; the data-row count equals the JSON record count, which
equals the number of distinct requested years. -/
theorem csvShape (input : List Int) (commits : Int → Nat)
    (metrics : Int → SearchMetrics) :
    csvFile (buildResults (computeYears input) commits metrics) =
      csvHeader :: (buildResults (computeYears input) commits metrics).map recordRow
    ∧ ((buildResults (computeYears input) commits metrics).map recordRow).length =
        (buildResults (computeYears input) commits metrics).length
    ∧ (buildResults (computeYears input) commits metrics).length =
        input.dedup.length := by
  refine ⟨rfl, by simp, ?_⟩
  simp only [buildResults, List.length_map, computeYears]
  exact (List.perm_insertionSort _ _).length_eq

/-! ## Claim C10 -/

/-- C10: a GITHUB_TOKEN set to the empty string is treated as absent — the
resolver falls through to the gh fallback; the helper process runs only
when gh is on the search path; and with gh off the path and no truthy
variable the resolver goes straight to the diagnostic exit without running
any external process. -/
theorem emptyEnvFallsThrough (env : Env) :
    (env.githubToken = some "" → getTokenT env = ghFallback env)
    ∧ ((getTokenT env).helperInvoked = true → env.ghOnPath = true)
    ∧ (envTruthy env.githubToken = false → env.ghOnPath = false →
        getTokenT env = ⟨TokenResult.exit 1, false⟩) := by
  refine ⟨?_, ?_, ?_⟩
  · intro h
    apply getTokenT_envTruthy
    rw [h]
    rfl
  · intro h
    cases hx : env.ghOnPath with
    | true => rfl
    | false =>
      rw [helperNotInvoked_offPath env hx] at h
      cases h
  · intro h1 h2
    rw [getTokenT_ofFailure env h1 (Or.inl h2), h2]

theorem emptyEnvFallsThrough_witness :
    getTokenT ⟨some "", false, none⟩ = ⟨TokenResult.exit 1, false⟩ :=
  (emptyEnvFallsThrough ⟨some "", false, none⟩).2.2 rfl rfl

end GithubMetrics
